import Mathlib

set_option maxHeartbeats 1000000
set_option linter.unusedVariables false

/-!
Verification of the SalesConnection JS SDK core.

The development shallowly embeds the SDK's field model, filter
serialization, attachment request building, URL routing, header merging
and status-update timestamping.  Stateful JavaScript code (in-place
mutation of `Field.value`, aliasing of the options object in
`getAssets`/`getProducts`) is embedded by explicit state passing; the
platform JSON codec is modelled at the level of JSON value trees.
-/

namespace SC

/-- JSON values: the model of the JavaScript values that cross the wire
boundary through `JSON.stringify`/`JSON.parse`. -/
inductive Json where
  | null : Json
  | bool (b : Bool) : Json
  | num (n : Int) : Json
  | str (s : String) : Json
  | arr (items : List Json) : Json
  | obj (entries : List (String × Json)) : Json

/-- `TemplateType` enum from `types.ts` (numeric values 1..13). -/
inductive TemplateType where
  | Customer | Deal | Job | Asset | Product
  | DF01 | DF02 | DF03 | DF04 | DF05 | DF06 | DF07
  | PF
deriving Repr, DecidableEq

/-- The numeric enum value of each `TemplateType` member. -/
def templateTypeCode : TemplateType → Int
  | .Customer => 1
  | .Deal     => 2
  | .Job      => 3
  | .Asset    => 4
  | .Product  => 5
  | .DF01     => 6
  | .DF02     => 7
  | .DF03     => 8
  | .DF04     => 9
  | .DF05     => 10
  | .DF06     => 11
  | .DF07     => 12
  | .PF       => 13

/-- `Field` from `types.ts`: `{ lbl_id, label, type, value }`.  The
`value : string | T[]` slot is modelled as a JSON value. -/
structure Field where
  lbl_id : String
  label : String
  type : String
  value : Json

/-- `FieldHelper.getField`: first field whose `lbl_id` equals the key
(`fields.find(f => f.lbl_id == lbl_id)`). -/
def getField (fields : List Field) (lbl_id : String) : Option Field :=
  fields.find? (fun f => f.lbl_id == lbl_id)

/-- `FieldHelper.getFieldByLabel`: first field whose `label` equals the
key. -/
def getFieldByLabel (fields : List Field) (label : String) : Option Field :=
  fields.find? (fun f => f.label == label)

/-- `FieldHelper.getValue`: `this.getField(lbl_id)?.value`. -/
def getValue (fields : List Field) (lbl_id : String) : Option Json :=
  (getField fields lbl_id).map Field.value

/-- `FieldHelper.getValueByLabel`: `this.getFieldByLabel(label)?.value`. -/
def getValueByLabel (fields : List Field) (label : String) : Option Json :=
  (getFieldByLabel fields label).map Field.value

/-- `FieldHelper.setValue`: `getField(lbl_id)` then, when found, mutate
that field's `value` in place.  The aliasing mutation is embedded as
replacing the `value` of the first matching field; all other fields and
the order of the list are untouched, and nothing is appended. -/
def setValue : List Field → String → Json → List Field
  | [], _, _ => []
  | f :: fs, lbl_id, value =>
    if f.lbl_id == lbl_id then { f with value := value } :: fs
    else f :: setValue fs lbl_id value

/-- `FieldHelper.setValueByLabel`: as `setValue` but keyed on `label`. -/
def setValueByLabel : List Field → String → Json → List Field
  | [], _, _ => []
  | f :: fs, label, value =>
    if f.label == label then { f with value := value } :: fs
    else f :: setValueByLabel fs label value

theorem setValue_of_not_mem (fields : List Field) (id : String) (v : Json)
    (h : ∀ f ∈ fields, f.lbl_id ≠ id) : setValue fields id v = fields := by
  induction fields with
  | nil => rfl
  | cons f fs ih =>
    have hf : f.lbl_id ≠ id := h f (List.mem_cons_self f fs)
    have hrec := ih fun g hg => h g (List.mem_cons_of_mem f hg)
    simp [setValue, hf, hrec]

theorem getValue_setValue_same (fields : List Field) (id : String) (v : Json)
    (h : ∃ f ∈ fields, f.lbl_id = id) :
    getValue (setValue fields id v) id = some v := by
  induction fields with
  | nil => simp at h
  | cons f fs ih =>
    by_cases hf : f.lbl_id = id
    · simp [setValue, getValue, getField, hf, List.find?]
    · have h' : ∃ g ∈ fs, g.lbl_id = id := by
        rcases h with ⟨g, hg, hgid⟩
        rcases List.mem_cons.mp hg with rfl | hmem
        · exact absurd hgid hf
        · exact ⟨g, hmem, hgid⟩
      have hrec := ih h'
      simp only [setValue, beq_eq_false_iff_ne.mpr hf, Bool.false_eq_true,
        if_false]
      simpa [getValue, getField, List.find?, beq_eq_false_iff_ne.mpr hf]
        using hrec

/-- C1: on a Field collection with unique `lbl_id`s that contains a field
with identifier `id`, `setValue id v` followed by `getValue id` returns
`v`; on a collection not containing `id`, `setValue id v` leaves the
collection unchanged (length, order, contents) and creates no field. -/
theorem c1_setValue_getValue (fields : List Field) (id : String) (v : Json)
    (huniq : (fields.map Field.lbl_id).Nodup) :
    ((∃ f ∈ fields, f.lbl_id = id) →
      getValue (setValue fields id v) id = some v) ∧
    ((∀ f ∈ fields, f.lbl_id ≠ id) → setValue fields id v = fields) := by
  constructor
  · exact fun h => getValue_setValue_same fields id v h
  · exact fun h => setValue_of_not_mem fields id v h

/-- C1 witness: concrete instance of both conjuncts. -/
theorem c1_setValue_getValue_witness :
    getValue (setValue [⟨"a", "A", "text", .str "x"⟩, ⟨"b", "B", "text", .str "y"⟩]
        "a" (.str "z")) "a" = some (.str "z") ∧
    setValue [⟨"a", "A", "text", .str "x"⟩, ⟨"b", "B", "text", .str "y"⟩]
        "zz" (.str "z") =
      [⟨"a", "A", "text", .str "x"⟩, ⟨"b", "B", "text", .str "y"⟩] :=
  ⟨(c1_setValue_getValue _ "a" (.str "z") (by decide)).1 (by decide),
   (c1_setValue_getValue _ "zz" (.str "z") (by decide)).2 (by decide)⟩

/-- The lookup-key/label/type part of a field: everything except the
mutable `value` slot. -/
def fieldMeta (f : Field) : String × String × String :=
  (f.lbl_id, f.label, f.type)

theorem setValue_map_fieldMeta (fields : List Field) (id : String) (v : Json) :
    (setValue fields id v).map fieldMeta = fields.map fieldMeta := by
  induction fields with
  | nil => rfl
  | cons f fs ih =>
    by_cases hf : f.lbl_id = id <;> simp [setValue, hf, fieldMeta, ih]

theorem setValueByLabel_map_fieldMeta (fields : List Field) (lab : String)
    (v : Json) :
    (setValueByLabel fields lab v).map fieldMeta = fields.map fieldMeta := by
  induction fields with
  | nil => rfl
  | cons f fs ih =>
    by_cases hf : f.label = lab <;> simp [setValueByLabel, hf, fieldMeta, ih]

theorem getValue_eq_none_iff (fields : List Field) (id : String) :
    getValue fields id = none ↔ ∀ f ∈ fields, f.lbl_id ≠ id := by
  unfold getValue getField
  rw [Option.map_eq_none', List.find?_eq_none]
  simp

theorem getValueByLabel_eq_none_iff (fields : List Field) (lab : String) :
    getValueByLabel fields lab = none ↔ ∀ f ∈ fields, f.label ≠ lab := by
  unfold getValueByLabel getFieldByLabel
  rw [Option.map_eq_none', List.find?_eq_none]
  simp

/-- C7: the lookups are total functions into an option type — a missed
lookup is the value `none`, never an error — and the setters return the
helper itself whether or not a match exists: the returned collection has
exactly the fields of the original (same length, order, `lbl_id`, `label`
and `type`; only a `value` slot may differ). -/
theorem c7_fieldHelper_total (fields : List Field) (key : String) (v : Json) :
    (getValue fields key = none ↔ ∀ f ∈ fields, f.lbl_id ≠ key) ∧
    (getValueByLabel fields key = none ↔ ∀ f ∈ fields, f.label ≠ key) ∧
    (setValue fields key v).map fieldMeta = fields.map fieldMeta ∧
    (setValueByLabel fields key v).map fieldMeta = fields.map fieldMeta :=
  ⟨getValue_eq_none_iff fields key, getValueByLabel_eq_none_iff fields key,
   setValue_map_fieldMeta fields key v, setValueByLabel_map_fieldMeta fields key v⟩

/-- The `WEBHOOK` lookup table of `toTemplateType` (`index.ts`). -/
def WEBHOOK : List (String × TemplateType) :=
  [("customer", .Customer), ("deal", .Deal), ("activity", .Asset),
   ("asset", .Asset), ("product", .Product), ("DR01", .DF01),
   ("DR02", .DF02), ("DR03", .DF03), ("DR04", .DF04), ("DR05", .DF05),
   ("DR06", .DF06), ("DR07", .DF07), ("public_form", .PF)]

/-- `toTemplateType` from `index.ts`: dictionary lookup in `WEBHOOK`.
The TS function returns `TemplateType | false`; the `false` branch is
modelled as `none`. -/
def toTemplateType (type : String) : Option TemplateType :=
  (WEBHOOK.find? (fun p => p.1 == type)).map (·.2)

/-- C10: `toTemplateType` maps each of the thirteen recognized keys to
its `TemplateType`, maps every other string to the `false` result
(`none`), and is not injective: `"activity"` and `"asset"` both map to
`TemplateType.Asset`. -/
theorem c10_toTemplateType_total :
    toTemplateType "customer" = some .Customer ∧
    toTemplateType "deal" = some .Deal ∧
    toTemplateType "activity" = some .Asset ∧
    toTemplateType "asset" = some .Asset ∧
    toTemplateType "product" = some .Product ∧
    toTemplateType "DR01" = some .DF01 ∧
    toTemplateType "DR02" = some .DF02 ∧
    toTemplateType "DR03" = some .DF03 ∧
    toTemplateType "DR04" = some .DF04 ∧
    toTemplateType "DR05" = some .DF05 ∧
    toTemplateType "DR06" = some .DF06 ∧
    toTemplateType "DR07" = some .DF07 ∧
    toTemplateType "public_form" = some .PF ∧
    (∀ s : String, toTemplateType s = none ↔ s ∉ WEBHOOK.map Prod.fst) ∧
    ("activity" ≠ "asset" ∧
      toTemplateType "activity" = toTemplateType "asset") := by
  refine ⟨by decide, by decide, by decide, by decide, by decide, by decide,
    by decide, by decide, by decide, by decide, by decide, by decide,
    by decide, ?_, by decide, by decide⟩
  intro s
  unfold toTemplateType
  rw [Option.map_eq_none', List.find?_eq_none]
  constructor
  · intro h hmem
    rcases List.mem_map.mp hmem with ⟨q, hq, hqs⟩
    exact absurd (beq_iff_eq.mpr hqs) (h q hq)
  · intro h q hq
    simp only [beq_iff_eq]
    exact fun he => h (List.mem_map.mpr ⟨q, hq, he⟩)

/-- `url.endsWith('/')` on the base URL. -/
def strEndsWithSlash (s : String) : Bool :=
  s.data.getLast? == some '/'

/-- `path.startsWith('/')`. -/
def strStartsWithSlash (s : String) : Bool :=
  s.data.head? == some '/'

/-- `path.substring(1)`. -/
def dropFirstChar (s : String) : String :=
  String.mk (s.data.drop 1)

/-- The default `version` parameter of `SDK.call` / `SDK.url`. -/
def defaultVersion : String := "v1"

/-- `SDK.url`: append a trailing slash to the base if absent, insert the
version segment, strip a single leading slash from the path, and
concatenate. -/
def url (baseUrl path version : String) : String :=
  let u := if strEndsWithSlash baseUrl then baseUrl else baseUrl ++ "/"
  let u2 := u ++ version ++ "/"
  let p := if strStartsWithSlash path then dropFirstChar path else path
  u2 ++ p

theorem url_general (b p v : String) (hb : b.data.getLast? ≠ some '/')
    (hp : p.data.head? ≠ some '/') :
    url b p v = b ++ "/" ++ v ++ "/" ++ p ∧
    url (b ++ "/") p v = b ++ "/" ++ v ++ "/" ++ p ∧
    url b ("/" ++ p) v = b ++ "/" ++ v ++ "/" ++ p ∧
    url (b ++ "/") ("/" ++ p) v = b ++ "/" ++ v ++ "/" ++ p := by
  have hbe : strEndsWithSlash b = false := by
    unfold strEndsWithSlash; exact beq_eq_false_iff_ne.mpr hb
  have hbe2 : strEndsWithSlash (b ++ "/") = true := by
    unfold strEndsWithSlash
    rw [beq_iff_eq, String.data_append]
    exact List.getLast?_concat _
  have hps : strStartsWithSlash p = false := by
    unfold strStartsWithSlash; exact beq_eq_false_iff_ne.mpr hp
  have hdata : ("/" ++ p).data = '/' :: p.data := by
    rw [String.data_append]; rfl
  have hps2 : strStartsWithSlash ("/" ++ p) = true := by
    unfold strStartsWithSlash
    rw [beq_iff_eq, hdata]
    rfl
  have hdrop : dropFirstChar ("/" ++ p) = p := by
    unfold dropFirstChar
    rw [hdata]
    rfl
  refine ⟨?_, ?_, ?_, ?_⟩ <;>
    · unfold url
      simp only [hbe, hbe2, hps, hps2, hdrop, Bool.false_eq_true, if_false,
        if_true]

/-- C3: concrete resolution `url("/data","v1")` against base
`"https://api.example.com"`; the same URL whether or not the base has a
trailing slash and whether or not the path has a (single) leading slash;
the version segment defaults to `"v1"`. -/
theorem c3_url_resolution :
    url "https://api.example.com" "/data" "v1" = "https://api.example.com/v1/data" ∧
    url "https://api.example.com/" "data" defaultVersion =
      "https://api.example.com/v1/data" ∧
    defaultVersion = "v1" ∧
    (∀ b p v : String, b.data.getLast? ≠ some '/' → p.data.head? ≠ some '/' →
      url b p v = b ++ "/" ++ v ++ "/" ++ p ∧
      url (b ++ "/") p v = b ++ "/" ++ v ++ "/" ++ p ∧
      url b ("/" ++ p) v = b ++ "/" ++ v ++ "/" ++ p ∧
      url (b ++ "/") ("/" ++ p) v = b ++ "/" ++ v ++ "/" ++ p) :=
  ⟨by decide, by decide, rfl, url_general⟩

/-- C3 witness: the general clause applied at a concrete base, path and
version. -/
theorem c3_url_resolution_witness :
    url "http://h" "d" "v2" = "http://h" ++ "/" ++ "v2" ++ "/" ++ "d" :=
  (c3_url_resolution.2.2.2 "http://h" "d" "v2" (by decide) (by decide)).1

/-- One step of building a JavaScript object: property assignment.  An
existing property keeps its insertion position and receives the new
value; a new property is appended at the end. -/
def setHeader (hs : List (String × String)) (kv : String × String) :
    List (String × String) :=
  if hs.any (fun q => q.1 == kv.1) then
    hs.map (fun q => if q.1 == kv.1 then (q.1, kv.2) else q)
  else hs ++ [kv]

/-- The header object of `SDK._call`:
`{ key: apiKey, secret: apiSecret, ...options.headers }` — the two
defaults are inserted first, then the caller headers are spread over
them, later properties overwriting earlier ones. -/
def buildHeaders (apiKey apiSecret : String)
    (caller : List (String × String)) : List (String × String) :=
  caller.foldl setHeader [("key", apiKey), ("secret", apiSecret)]

/-- Property lookup on a header object. -/
def lookupHeader (hs : List (String × String)) (name : String) :
    Option String :=
  (hs.find? (fun q => q.1 == name)).map (·.2)

theorem lookupHeader_cons_self (q : String × String)
    (hs : List (String × String)) (n : String) (h : q.1 = n) :
    lookupHeader (q :: hs) n = some q.2 := by
  unfold lookupHeader
  rw [List.find?_cons_of_pos _ (by simpa using h)]
  rfl

theorem lookupHeader_cons_ne (q : String × String)
    (hs : List (String × String)) (n : String) (h : q.1 ≠ n) :
    lookupHeader (q :: hs) n = lookupHeader hs n := by
  unfold lookupHeader
  rw [List.find?_cons_of_neg _ (by simpa using h)]

theorem lookupHeader_map_update (hs : List (String × String))
    (kv : String × String) (n : String) :
    lookupHeader (hs.map fun q => if q.1 == kv.1 then (q.1, kv.2) else q) n =
      if kv.1 = n then (lookupHeader hs n).map (fun _ => kv.2)
      else lookupHeader hs n := by
  induction hs with
  | nil => by_cases hk : kv.1 = n <;> simp [lookupHeader, hk]
  | cons q hs' ih =>
    rw [List.map_cons]
    by_cases h1 : q.1 = kv.1 <;> by_cases h2 : q.1 = n
    · have h3 : kv.1 = n := h1 ▸ h2
      rw [show (if q.1 == kv.1 then (q.1, kv.2) else q) = (q.1, kv.2) from
        by simp [h1]]
      rw [lookupHeader_cons_self (q.1, kv.2) _ n h2, if_pos h3,
        lookupHeader_cons_self q hs' n h2]
      rfl
    · have h3 : ¬kv.1 = n := fun hc => h2 (h1.trans hc)
      rw [show (if q.1 == kv.1 then (q.1, kv.2) else q) = (q.1, kv.2) from
        by simp [h1]]
      rw [lookupHeader_cons_ne (q.1, kv.2) _ n h2, if_neg h3,
        lookupHeader_cons_ne q hs' n h2, ih, if_neg h3]
    · have h3 : ¬kv.1 = n := fun hc => h1 (h2.trans hc.symm)
      rw [show (if q.1 == kv.1 then (q.1, kv.2) else q) = q from by simp [h1]]
      rw [lookupHeader_cons_self q _ n h2, if_neg h3,
        lookupHeader_cons_self q hs' n h2]
    · rw [show (if q.1 == kv.1 then (q.1, kv.2) else q) = q from by simp [h1]]
      rw [lookupHeader_cons_ne q _ n h2, lookupHeader_cons_ne q hs' n h2]
      exact ih

theorem lookupHeader_setHeader (hs : List (String × String))
    (kv : String × String) (n : String) :
    lookupHeader (setHeader hs kv) n =
      if kv.1 = n then some kv.2 else lookupHeader hs n := by
  unfold setHeader
  cases hany : hs.any (fun q => q.1 == kv.1) with
  | true =>
    rw [if_pos rfl, lookupHeader_map_update]
    by_cases hk : kv.1 = n
    · rw [if_pos hk, if_pos hk]
      subst hk
      have hsome : (hs.find? (fun q => q.1 == kv.1)).isSome :=
        List.find?_isSome.mpr (List.any_eq_true.mp hany)
      rcases Option.isSome_iff_exists.mp hsome with ⟨q, hq⟩
      simp [lookupHeader, hq]
    · rw [if_neg hk, if_neg hk]
  | false =>
    rw [if_neg Bool.false_ne_true]
    unfold lookupHeader
    rw [List.find?_append]
    by_cases hk : kv.1 = n
    · subst hk
      have hnone : hs.find? (fun q => q.1 == kv.1) = none := by
        rw [List.find?_eq_none]
        intro q hq hc
        have : hs.any (fun q => q.1 == kv.1) = true :=
          List.any_eq_true.mpr ⟨q, hq, hc⟩
        rw [hany] at this
        exact Bool.false_ne_true this
      rw [hnone]
      simp [List.find?]
    · have h2 : List.find? (fun q => q.1 == n) [kv] = none := by
        simp [List.find?, beq_eq_false_iff_ne.mpr hk]
      rw [h2, if_neg hk]
      cases hf : hs.find? (fun q => q.1 == n) <;> simp

theorem lookupHeader_foldl (caller : List (String × String))
    (hs : List (String × String)) (n : String) :
    lookupHeader (caller.foldl setHeader hs) n =
      match (caller.filter (fun q => q.1 == n)).getLast? with
      | some q => some q.2
      | none => lookupHeader hs n := by
  induction caller generalizing hs with
  | nil => rfl
  | cons kv rest ih =>
    rw [List.foldl_cons, ih]
    by_cases hk : kv.1 = n
    · rw [List.filter_cons_of_pos (by simpa using hk)]
      cases hfl : rest.filter (fun q => q.1 == n) with
      | nil => simp [lookupHeader_setHeader, hk]
      | cons x xs =>
        cases hgl : (x :: xs).getLast? with
        | none => exact absurd (List.getLast?_eq_none_iff.mp hgl) (by simp)
        | some y => simp [hfl, List.getLast?_cons_cons, hgl]
    · rw [List.filter_cons_of_neg (by simpa using hk)]
      cases hfl : rest.filter (fun q => q.1 == n) with
      | nil => simp [lookupHeader_setHeader, hk]
      | cons x xs =>
        cases hgl : (x :: xs).getLast? with
        | none => exact absurd (List.getLast?_eq_none_iff.mp hgl) (by simp)
        | some y => simp [hgl]

/-- C8: the built header object always carries `key` and `secret`: their
values are the configured `apiKey`/`apiSecret` unless the caller supplied
a header of the same name, in which case the caller's (last) value wins,
because the defaults are merged first. -/
theorem c8_headers_merge (apiKey apiSecret : String)
    (caller : List (String × String)) :
    lookupHeader (buildHeaders apiKey apiSecret caller) "key" =
      some ((((caller.filter (fun q => q.1 == "key")).getLast?).map
        Prod.snd).getD apiKey) ∧
    lookupHeader (buildHeaders apiKey apiSecret caller) "secret" =
      some ((((caller.filter (fun q => q.1 == "secret")).getLast?).map
        Prod.snd).getD apiSecret) := by
  constructor <;>
    · unfold buildHeaders
      rw [lookupHeader_foldl]
      cases (caller.filter _).getLast? <;> simp [lookupHeader, List.find?]

/-- `FieldType` enum from `types.ts` (`'default'`/`'dynamic'`). -/
inductive FieldType where
  | default
  | dynamic
deriving Repr, DecidableEq

/-- The string value of a `FieldType` member. -/
def FieldType.toStr : FieldType → String
  | .default => "default"
  | .dynamic => "dynamic"

/-- The `filetype`-discriminated payload of `UploadAttachmentOptions`:
the `"file"` variant carries a `Blob` (modelled by its opaque contents),
the `"link"` variant carries a `URL` (modelled by its string form, the
value of `link.toString()`). -/
inductive AttachPayload where
  | file (blob : String)
  | link (urlString : String)
deriving Repr, DecidableEq

/-- `UploadAttachmentOptions` from `types.ts`: the common part plus the
tagged `file`/`link` union. -/
structure UploadAttachmentOptions where
  field : Field
  type : FieldType
  payload : AttachPayload
  replace : Option Bool
  filename : Option String

/-- The `filetype` discriminant of the union. -/
def UploadAttachmentOptions.filetype (o : UploadAttachmentOptions) : String :=
  match o.payload with
  | .file _ => "file"
  | .link _ => "link"

/-- A value appended to the `FormData` body: a string part or a binary
blob part. -/
inductive PartValue where
  | str (s : String)
  | blob (b : String)
deriving Repr, DecidableEq

/-- The `FormData` body built by `SDK.uploadAttachment`, as the ordered
list of appended `(name, value)` parts: `type`, `ref_id`, `lbl_id`,
`field_type`, then `file` or `link` depending on `data.filetype`, then
`replace` as `'1'`/`'0'` from `(data.replace ?? false)`, then the
optional `filename`. -/
def uploadAttachmentParts (ttype : TemplateType) (ref_id : String)
    (data : UploadAttachmentOptions) : List (String × PartValue) :=
  ([("type", PartValue.str (toString (templateTypeCode ttype))),
    ("ref_id", PartValue.str ref_id),
    ("lbl_id", PartValue.str data.field.lbl_id),
    ("field_type", PartValue.str data.type.toStr)]
   ++ (match data.payload with
       | .file b => [("file", PartValue.blob b)]
       | .link u => [("link", PartValue.str u)])
   ++ [("replace",
        PartValue.str (if data.replace.getD false then "1" else "0"))])
   ++ (match data.filename with
       | some fn => [("filename", PartValue.str fn)]
       | none => [])

/-- The set of part names of a multipart body. -/
def partNames (parts : List (String × PartValue)) : List String :=
  parts.map Prod.fst

/-- Value of the named part. -/
def lookupPart (parts : List (String × PartValue)) (n : String) :
    Option PartValue :=
  (parts.find? (fun q => q.1 == n)).map (·.2)

/-- C2: the multipart body contains a `file` part and no `link` part for
the `"file"` variant, a `link` part and no `file` part for the `"link"`
variant; the `replace` part is always exactly the string `"1"` or `"0"`,
and it is `"0"` when the replace flag is omitted. -/
theorem c2_uploadAttachment_body (t : TemplateType) (r : String)
    (data : UploadAttachmentOptions) :
    (data.filetype = "file" →
      "file" ∈ partNames (uploadAttachmentParts t r data) ∧
      "link" ∉ partNames (uploadAttachmentParts t r data)) ∧
    (data.filetype = "link" →
      "link" ∈ partNames (uploadAttachmentParts t r data) ∧
      "file" ∉ partNames (uploadAttachmentParts t r data)) ∧
    (lookupPart (uploadAttachmentParts t r data) "replace" =
        some (.str "1") ∨
      lookupPart (uploadAttachmentParts t r data) "replace" =
        some (.str "0")) ∧
    (data.replace = none →
      lookupPart (uploadAttachmentParts t r data) "replace" =
        some (.str "0")) := by
  obtain ⟨fld, ty, pl, rep, fn⟩ := data
  refine ⟨?_, ?_, ?_, ?_⟩
  · intro h
    cases pl with
    | file b =>
      cases fn <;>
        simp [partNames, uploadAttachmentParts]
    | link u => simp [UploadAttachmentOptions.filetype] at h
  · intro h
    cases pl with
    | file b => simp [UploadAttachmentOptions.filetype] at h
    | link u =>
      cases fn <;>
        simp [partNames, uploadAttachmentParts]
  · rcases rep with _ | b
    · right
      cases pl <;> cases fn <;>
        simp [lookupPart, uploadAttachmentParts, List.find?]
    · cases b
      · right
        cases pl <;> cases fn <;>
          simp [lookupPart, uploadAttachmentParts, List.find?]
      · left
        cases pl <;> cases fn <;>
          simp [lookupPart, uploadAttachmentParts, List.find?]
  · intro h
    subst h
    cases pl <;> cases fn <;>
      simp [lookupPart, uploadAttachmentParts, List.find?]

/-- C2 witness: a concrete `"file"` upload with the replace flag omitted. -/
theorem c2_uploadAttachment_body_witness :
    ("file" ∈ partNames (uploadAttachmentParts .Job "r1"
        ⟨⟨"a", "A", "text", .str "x"⟩, .dynamic, .file "BLOB", none, none⟩) ∧
      "link" ∉ partNames (uploadAttachmentParts .Job "r1"
        ⟨⟨"a", "A", "text", .str "x"⟩, .dynamic, .file "BLOB", none, none⟩)) ∧
    lookupPart (uploadAttachmentParts .Job "r1"
        ⟨⟨"a", "A", "text", .str "x"⟩, .dynamic, .file "BLOB", none, none⟩)
      "replace" = some (.str "0") :=
  ⟨(c2_uploadAttachment_body .Job "r1" _).1 rfl,
   (c2_uploadAttachment_body .Job "r1" _).2.2.2 rfl⟩

/-- `SearchOperator` enum from `types.ts`: the wire codes. -/
inductive SearchOperator where
  | Equal | NotEqual | LessThan | GreaterThan | LessThanEqual | GreaterThanEqual
deriving Repr, DecidableEq

/-- The short string code of a `SearchOperator` member. -/
def SearchOperator.code : SearchOperator → String
  | .Equal => "eq"
  | .NotEqual => "ne"
  | .LessThan => "lt"
  | .GreaterThan => "gt"
  | .LessThanEqual => "lte"
  | .GreaterThanEqual => "gte"

/-- Inverse of `SearchOperator.code`, used when parsing serialized
filters back. -/
def SearchOperator.ofCode (s : String) : Option SearchOperator :=
  if s = "eq" then some .Equal
  else if s = "ne" then some .NotEqual
  else if s = "lt" then some .LessThan
  else if s = "gt" then some .GreaterThan
  else if s = "lte" then some .LessThanEqual
  else if s = "gte" then some .GreaterThanEqual
  else none

theorem SearchOperator.ofCode_code (op : SearchOperator) :
    SearchOperator.ofCode op.code = some op := by
  cases op <;> rfl

/-- A `{lbl_id, operator, value}` predicate triple of a `Filter`. -/
structure FilterTriple where
  lbl_id : String
  operator : SearchOperator
  value : Json

/-- The `Filter` interface from `types.ts`: every key optional. -/
structure Filter where
  default_fields : Option (List FilterTriple)
  dynamic_fields : Option (List FilterTriple)
  ref_id : Option Json
  name : Option Json
  source_type : Option TemplateType
  source_id : Option Json
  seq_no : Option String
  deal_seq_no : Option String
  customer_seq_no : Option String
  activity_seq_no : Option String

/-- The all-absent `Filter` (`{}` in TS). -/
def emptyFilter : Filter :=
  ⟨none, none, none, none, none, none, none, none, none, none⟩

/-- JSON image of one predicate triple under `JSON.stringify`. -/
def tripleToJson (t : FilterTriple) : Json :=
  .obj [("lbl_id", .str t.lbl_id), ("operator", .str t.operator.code),
        ("value", t.value)]

/-- JSON image of a field-predicate array, in caller order. -/
def fieldsToJson (l : List FilterTriple) : Json :=
  .arr (l.map tripleToJson)

/-- A key of a JS object is emitted by `JSON.stringify` only when its
value is defined. -/
def optEntry (k : String) : Option Json → List (String × Json)
  | none => []
  | some v => [(k, v)]

/-- The object entries of the JSON image of a `Filter`, keys in
declaration order, `undefined` keys omitted. -/
def filterEntries (f : Filter) : List (String × Json) :=
  optEntry "default_fields" (f.default_fields.map fieldsToJson) ++
    (optEntry "dynamic_fields" (f.dynamic_fields.map fieldsToJson) ++
      (optEntry "ref_id" f.ref_id ++
        (optEntry "name" f.name ++
          (optEntry "source_type"
              (f.source_type.map (fun t => .num (templateTypeCode t))) ++
            (optEntry "source_id" f.source_id ++
              (optEntry "seq_no" (f.seq_no.map .str) ++
                (optEntry "deal_seq_no" (f.deal_seq_no.map .str) ++
                  (optEntry "customer_seq_no" (f.customer_seq_no.map .str) ++
                    optEntry "activity_seq_no" (f.activity_seq_no.map .str)))))))))

/-- `JSON.stringify`'s value tree for a `Filter`. -/
def filterToJson (f : Filter) : Json :=
  .obj (filterEntries f)

/-- Key lookup in a JSON object. -/
def lookupKey (kvs : List (String × Json)) (k : String) : Option Json :=
  (kvs.find? (fun q => q.1 == k)).map (·.2)

theorem lookupKey_optEntry_some (k : String) (x : Json)
    (rest : List (String × Json)) :
    lookupKey (optEntry k (some x) ++ rest) k = some x := by
  simp [optEntry, lookupKey, List.find?]

theorem lookupKey_optEntry_none (k : String) (rest : List (String × Json)) :
    lookupKey (optEntry k none ++ rest) k = lookupKey rest k := rfl

theorem lookupKey_optEntry_ne (k k' : String) (v : Option Json)
    (rest : List (String × Json)) (h : k' ≠ k) :
    lookupKey (optEntry k' v ++ rest) k = lookupKey rest k := by
  cases v <;> simp [optEntry, lookupKey, List.find?, beq_eq_false_iff_ne.mpr h]

theorem lookupKey_optEntry_bare_eq (k : String) (v : Option Json) :
    lookupKey (optEntry k v) k = v := by
  cases v <;> simp [optEntry, lookupKey, List.find?]

theorem lookupKey_optEntry_bare_ne (k k' : String) (v : Option Json)
    (h : k' ≠ k) :
    lookupKey (optEntry k' v) k = none := by
  cases v <;> simp [optEntry, lookupKey, List.find?, beq_eq_false_iff_ne.mpr h]

theorem lookupKey_filterEntries_df (f : Filter) :
    lookupKey (filterEntries f) "default_fields" =
      f.default_fields.map fieldsToJson := by
  cases h : f.default_fields <;>
    simp [filterEntries, h, lookupKey_optEntry_some, lookupKey_optEntry_none,
      lookupKey_optEntry_ne, lookupKey_optEntry_bare_eq,
      lookupKey_optEntry_bare_ne]

theorem lookupKey_filterEntries_dyf (f : Filter) :
    lookupKey (filterEntries f) "dynamic_fields" =
      f.dynamic_fields.map fieldsToJson := by
  cases h : f.dynamic_fields <;>
    simp [filterEntries, h, lookupKey_optEntry_some, lookupKey_optEntry_none,
      lookupKey_optEntry_ne, lookupKey_optEntry_bare_eq,
      lookupKey_optEntry_bare_ne]

theorem lookupKey_filterEntries_ref_id (f : Filter) :
    lookupKey (filterEntries f) "ref_id" = f.ref_id := by
  cases h : f.ref_id <;>
    simp [filterEntries, h, lookupKey_optEntry_some, lookupKey_optEntry_none,
      lookupKey_optEntry_ne, lookupKey_optEntry_bare_eq,
      lookupKey_optEntry_bare_ne]

theorem lookupKey_filterEntries_name (f : Filter) :
    lookupKey (filterEntries f) "name" = f.name := by
  cases h : f.name <;>
    simp [filterEntries, h, lookupKey_optEntry_some, lookupKey_optEntry_none,
      lookupKey_optEntry_ne, lookupKey_optEntry_bare_eq,
      lookupKey_optEntry_bare_ne]

theorem lookupKey_filterEntries_st (f : Filter) :
    lookupKey (filterEntries f) "source_type" =
      f.source_type.map (fun t => .num (templateTypeCode t)) := by
  cases h : f.source_type <;>
    simp [filterEntries, h, lookupKey_optEntry_some, lookupKey_optEntry_none,
      lookupKey_optEntry_ne, lookupKey_optEntry_bare_eq,
      lookupKey_optEntry_bare_ne]

theorem lookupKey_filterEntries_sid (f : Filter) :
    lookupKey (filterEntries f) "source_id" = f.source_id := by
  cases h : f.source_id <;>
    simp [filterEntries, h, lookupKey_optEntry_some, lookupKey_optEntry_none,
      lookupKey_optEntry_ne, lookupKey_optEntry_bare_eq,
      lookupKey_optEntry_bare_ne]

theorem lookupKey_filterEntries_sn (f : Filter) :
    lookupKey (filterEntries f) "seq_no" = f.seq_no.map .str := by
  cases h : f.seq_no <;>
    simp [filterEntries, h, lookupKey_optEntry_some, lookupKey_optEntry_none,
      lookupKey_optEntry_ne, lookupKey_optEntry_bare_eq,
      lookupKey_optEntry_bare_ne]

theorem lookupKey_filterEntries_dsn (f : Filter) :
    lookupKey (filterEntries f) "deal_seq_no" = f.deal_seq_no.map .str := by
  cases h : f.deal_seq_no <;>
    simp [filterEntries, h, lookupKey_optEntry_some, lookupKey_optEntry_none,
      lookupKey_optEntry_ne, lookupKey_optEntry_bare_eq,
      lookupKey_optEntry_bare_ne]

theorem lookupKey_filterEntries_csn (f : Filter) :
    lookupKey (filterEntries f) "customer_seq_no" =
      f.customer_seq_no.map .str := by
  cases h : f.customer_seq_no <;>
    simp [filterEntries, h, lookupKey_optEntry_some, lookupKey_optEntry_none,
      lookupKey_optEntry_ne, lookupKey_optEntry_bare_eq,
      lookupKey_optEntry_bare_ne]

theorem lookupKey_filterEntries_asn (f : Filter) :
    lookupKey (filterEntries f) "activity_seq_no" =
      f.activity_seq_no.map .str := by
  cases h : f.activity_seq_no <;>
    simp [filterEntries, h, lookupKey_optEntry_some, lookupKey_optEntry_none,
      lookupKey_optEntry_ne, lookupKey_optEntry_bare_eq,
      lookupKey_optEntry_bare_ne]

/-- Parse one serialized predicate triple back. -/
def tripleFromJson : Json → Option FilterTriple
  | .obj kvs =>
    match lookupKey kvs "lbl_id", lookupKey kvs "operator",
        lookupKey kvs "value" with
    | some (.str l), some (.str c), some v =>
      match SearchOperator.ofCode c with
      | some op => some ⟨l, op, v⟩
      | none => none
    | _, _, _ => none
  | _ => none

/-- Parse a list of serialized triples, failing on the first ill-formed
element. -/
def triplesFromList : List Json → Option (List FilterTriple)
  | [] => some []
  | j :: rest =>
    match tripleFromJson j, triplesFromList rest with
    | some t, some ts => some (t :: ts)
    | _, _ => none

/-- Parse a serialized field-predicate array. -/
def triplesFromJson : Json → Option (List FilterTriple)
  | .arr items => triplesFromList items
  | _ => none

/-- Parse a JSON string. -/
def strFromJson : Json → Option String
  | .str s => some s
  | _ => none

/-- Parse a numeric `TemplateType` enum value. -/
def templateTypeFromJson : Json → Option TemplateType
  | .num n =>
    if n = 1 then some .Customer else if n = 2 then some .Deal
    else if n = 3 then some .Job else if n = 4 then some .Asset
    else if n = 5 then some .Product else if n = 6 then some .DF01
    else if n = 7 then some .DF02 else if n = 8 then some .DF03
    else if n = 9 then some .DF04 else if n = 10 then some .DF05
    else if n = 11 then some .DF06 else if n = 12 then some .DF07
    else if n = 13 then some .PF else none
  | _ => none

/-- Parse an optional key: an absent key parses to `none`, a present key
must parse with `p`. -/
def optParse {α : Type} (p : Json → Option α) : Option Json → Option (Option α)
  | none => some none
  | some j => (p j).map some

/-- Parse the JSON image of a `Filter` back into a `Filter`. -/
def jsonToFilter : Json → Option Filter
  | .obj kvs => do
    let df ← optParse triplesFromJson (lookupKey kvs "default_fields")
    let dyf ← optParse triplesFromJson (lookupKey kvs "dynamic_fields")
    let rid ← optParse some (lookupKey kvs "ref_id")
    let nm ← optParse some (lookupKey kvs "name")
    let st ← optParse templateTypeFromJson (lookupKey kvs "source_type")
    let sid ← optParse some (lookupKey kvs "source_id")
    let sn ← optParse strFromJson (lookupKey kvs "seq_no")
    let dsn ← optParse strFromJson (lookupKey kvs "deal_seq_no")
    let csn ← optParse strFromJson (lookupKey kvs "customer_seq_no")
    let asn ← optParse strFromJson (lookupKey kvs "activity_seq_no")
    some ⟨df, dyf, rid, nm, st, sid, sn, dsn, csn, asn⟩
  | _ => none

theorem tripleFromJson_tripleToJson (t : FilterTriple) :
    tripleFromJson (tripleToJson t) = some t := by
  simp [tripleToJson, tripleFromJson, lookupKey, List.find?,
    SearchOperator.ofCode_code]

theorem triplesFromList_map (l : List FilterTriple) :
    triplesFromList (l.map tripleToJson) = some l := by
  induction l with
  | nil => rfl
  | cons t rest ih =>
    simp [triplesFromList, tripleFromJson_tripleToJson, ih]

theorem triplesFromJson_fieldsToJson (l : List FilterTriple) :
    triplesFromJson (fieldsToJson l) = some l := by
  simp [fieldsToJson, triplesFromJson, triplesFromList_map]

theorem templateTypeFromJson_code (t : TemplateType) :
    templateTypeFromJson (.num (templateTypeCode t)) = some t := by
  cases t <;> rfl

theorem optParse_map {α : Type} (p : Json → Option α) (toJ : α → Json)
    (hp : ∀ a, p (toJ a) = some a) (o : Option α) :
    optParse p (o.map toJ) = some o := by
  cases o <;> simp [optParse, hp]

theorem optParse_id (o : Option Json) : optParse some o = some o := by
  cases o <;> simp [optParse]

theorem jsonToFilter_filterToJson (f : Filter) :
    jsonToFilter (filterToJson f) = some f := by
  have h1 := lookupKey_filterEntries_df f
  have h2 := lookupKey_filterEntries_dyf f
  have h3 := lookupKey_filterEntries_ref_id f
  have h4 := lookupKey_filterEntries_name f
  have h5 := lookupKey_filterEntries_st f
  have h6 := lookupKey_filterEntries_sid f
  have h7 := lookupKey_filterEntries_sn f
  have h8 := lookupKey_filterEntries_dsn f
  have h9 := lookupKey_filterEntries_csn f
  have h10 := lookupKey_filterEntries_asn f
  simp only [filterToJson, jsonToFilter, h1, h2, h3, h4, h5, h6, h7, h8, h9,
    h10,
    optParse_map triplesFromJson fieldsToJson triplesFromJson_fieldsToJson,
    optParse_map templateTypeFromJson _ templateTypeFromJson_code,
    optParse_map strFromJson Json.str (fun s => rfl),
    optParse_id, Option.bind_some, Option.some_bind, bind, Option.bind]

/-- C5: serializing a `Filter` and parsing it back yields a structurally
equal `Filter`, and the order of the `{lbl_id, operator, value}` triples
inside `default_fields` and `dynamic_fields` is preserved exactly as
given (the serialized arrays are the in-order images of the caller's
lists). -/
theorem c5_filter_roundtrip (f : Filter) :
    jsonToFilter (filterToJson f) = some f ∧
    (∀ l, f.default_fields = some l →
      lookupKey (filterEntries f) "default_fields" =
        some (.arr (l.map tripleToJson))) ∧
    (∀ l, f.dynamic_fields = some l →
      lookupKey (filterEntries f) "dynamic_fields" =
        some (.arr (l.map tripleToJson))) := by
  refine ⟨jsonToFilter_filterToJson f, ?_, ?_⟩
  · intro l hl
    rw [lookupKey_filterEntries_df, hl]
    rfl
  · intro l hl
    rw [lookupKey_filterEntries_dyf, hl]
    rfl

/-- C5 witness: a concrete two-predicate filter round-trips and keeps
its array order. -/
theorem c5_filter_roundtrip_witness :
    jsonToFilter (filterToJson
      ⟨some [⟨"a", .Equal, .str "1"⟩, ⟨"b", .LessThan, .num 2⟩], none, none,
        none, none, none, none, none, none, none⟩) =
      some ⟨some [⟨"a", .Equal, .str "1"⟩, ⟨"b", .LessThan, .num 2⟩], none,
        none, none, none, none, none, none, none, none⟩ ∧
    lookupKey (filterEntries
      ⟨some [⟨"a", .Equal, .str "1"⟩, ⟨"b", .LessThan, .num 2⟩], none, none,
        none, none, none, none, none, none, none⟩) "default_fields" =
      some (.arr ([⟨"a", .Equal, .str "1"⟩,
        (⟨"b", .LessThan, .num 2⟩ : FilterTriple)].map tripleToJson)) :=
  ⟨(c5_filter_roundtrip _).1, (c5_filter_roundtrip _).2.1 _ rfl⟩

/-- JSON string escaping of one character, as `JSON.stringify` performs
it for the common escapes. -/
def escapeChar (c : Char) : String :=
  if c = '"' then "\\\""
  else if c = '\\' then "\\\\"
  else if c = '\n' then "\\n"
  else if c = '\r' then "\\r"
  else if c = '\t' then "\\t"
  else String.singleton c

/-- A JSON string literal: quoted and escaped. -/
def quoteJsonString (s : String) : String :=
  "\"" ++ String.join (s.data.map escapeChar) ++ "\""

mutual

/-- Render a JSON value to its `JSON.stringify` text. -/
def stringify : Json → String
  | .null => "null"
  | .bool true => "true"
  | .bool false => "false"
  | .num n => toString n
  | .str s => quoteJsonString s
  | .arr items => "[" ++ stringifyItems items ++ "]"
  | .obj entries => "\x7b" ++ stringifyEntries entries ++ "\x7d"

/-- Comma-separated rendering of array items. -/
def stringifyItems : List Json → String
  | [] => ""
  | [j] => stringify j
  | j :: rest => stringify j ++ "," ++ stringifyItems rest

/-- Comma-separated rendering of object entries. -/
def stringifyEntries : List (String × Json) → String
  | [] => ""
  | [(k, v)] => quoteJsonString k ++ ":" ++ stringify v
  | (k, v) :: rest =>
    quoteJsonString k ++ ":" ++ stringify v ++ "," ++ stringifyEntries rest

end

/-- `SearchOptions` from `types.ts`. -/
structure SearchOptions where
  category : Option String
  filter : Option Filter

/-- The query parameters built by `SDK.search`: `type` always; `filter`
only when `option?.filter` is truthy; `category` only when
`option?.category` is truthy. -/
structure SearchParams where
  type : TemplateType
  filter : Option String
  category : Option String

/-- `SDK.search` parameter construction.  `option?.filter` is a `Filter`
object, truthy exactly when present; `option?.category` is a string,
truthy when present and nonempty. -/
def searchParams (ttype : TemplateType) (option : Option SearchOptions) :
    SearchParams :=
  { type := ttype
    filter :=
      match option with
      | some o =>
        match o.filter with
        | some fl => some (stringify (filterToJson fl))
        | none => none
      | none => none
    category :=
      match option with
      | some o =>
        match o.category with
        | some c => if c = "" then none else some c
        | none => none
      | none => none }

/-- The value held by the `filter` property of an options object passed
to `getAssets`/`getProducts`.  The caller stores a `Filter` object; the
SDK overwrites the property with the serialized string (the options
object is typed `any` at that point). -/
inductive FilterSlot where
  | obj (f : Filter)
  | str (s : String)

/-- JS truthiness of a `filter` slot value: an object is always truthy,
a string is truthy iff nonempty. -/
def FilterSlot.truthy : FilterSlot → Bool
  | .obj _ => true
  | .str s => !(s == "")

/-- The JSON value tree of whatever the slot holds (`JSON.stringify`'s
argument). -/
def FilterSlot.toJson : FilterSlot → Json
  | .obj f => filterToJson f
  | .str s => .str s

/-- `AssetFilterOptions` from `types.ts`. -/
structure AssetFilterOptions where
  type : Option TemplateType
  ref_id : Option String
  filter : Option FilterSlot
  page : Option Int

/-- `SDK.getAssets` parameter construction.  `let params: any = option`
aliases the caller's options object; when `option?.filter` is truthy, the
`filter` property of that same object is overwritten with
`JSON.stringify(option.filter)`.  The returned object is simultaneously
the request `params` and the caller's (possibly mutated) `option`. -/
def getAssetsParams (option : Option AssetFilterOptions) :
    Option AssetFilterOptions :=
  match option with
  | none => none
  | some o =>
    match o.filter with
    | some sl =>
      if sl.truthy then
        some { o with filter := some (.str (stringify sl.toJson)) }
      else some o
    | none => some o

/-- The `filter` part of `ProductFilterOptions` from `types.ts`. -/
structure ProductFilter where
  name : Option String

/-- The JSON object entries of a `ProductFilter`. -/
def productFilterEntries (f : ProductFilter) : List (String × Json) :=
  optEntry "name" (f.name.map .str)

/-- The value held by the `filter` property of a `ProductFilterOptions`
object: the caller's object, or the serialized string after the SDK's
overwrite. -/
inductive ProductFilterSlot where
  | obj (f : ProductFilter)
  | str (s : String)

/-- JS truthiness of a product `filter` slot value. -/
def ProductFilterSlot.truthy : ProductFilterSlot → Bool
  | .obj _ => true
  | .str s => !(s == "")

/-- The JSON value tree of whatever the product slot holds. -/
def ProductFilterSlot.toJson : ProductFilterSlot → Json
  | .obj f => .obj (productFilterEntries f)
  | .str s => .str s

/-- `ProductFilterOptions` from `types.ts`. -/
structure ProductFilterOptions where
  page : Option Int
  filter : Option ProductFilterSlot

/-- `SDK.getProducts` parameter construction: same aliasing pattern as
`getAssets` (`let params: any = options`; overwrite `params.filter`). -/
def getProductsParams (options : Option ProductFilterOptions) :
    Option ProductFilterOptions :=
  match options with
  | none => none
  | some o =>
    match o.filter with
    | some sl =>
      if sl.truthy then
        some { o with filter := some (.str (stringify sl.toJson)) }
      else some o
    | none => some o

/-- C4: when the filter reference is present, `search` and `getAssets`
carry a `filter` query parameter equal to the JSON serialization of the
`Filter`; an empty `Filter` serializes to the valid empty JSON object
text and is still sent — distinguishable on the wire from the absent
case, in which no `filter` parameter is sent at all. -/
theorem c4_filter_param (t : TemplateType) (o : SearchOptions) (fl : Filter)
    (ao : AssetFilterOptions) (afl : Filter) :
    (o.filter = some fl →
      (searchParams t (some o)).filter = some (stringify (filterToJson fl))) ∧
    (o.filter = none → (searchParams t (some o)).filter = none) ∧
    (searchParams t none).filter = none ∧
    stringify (filterToJson emptyFilter) = "\x7b\x7d" ∧
    some (stringify (filterToJson emptyFilter)) ≠ (none : Option String) ∧
    (ao.filter = some (.obj afl) →
      getAssetsParams (some ao) =
        some { ao with filter := some (.str (stringify (filterToJson afl))) }) ∧
    (ao.filter = none → getAssetsParams (some ao) = some ao) ∧
    getAssetsParams none = none := by
  refine ⟨?_, ?_, rfl, by decide, by simp, ?_, ?_, rfl⟩
  · intro h
    simp [searchParams, h]
  · intro h
    simp [searchParams, h]
  · intro h
    simp [getAssetsParams, h, FilterSlot.truthy, FilterSlot.toJson]
  · intro h
    simp [getAssetsParams, h]

/-- C4 witness: concrete search with an empty filter, and a concrete
search with the filter absent. -/
theorem c4_filter_param_witness :
    (searchParams .Customer (some ⟨none, some emptyFilter⟩)).filter =
      some (stringify (filterToJson emptyFilter)) ∧
    (searchParams .Customer (some ⟨none, none⟩)).filter = none :=
  ⟨(c4_filter_param .Customer ⟨none, some emptyFilter⟩ emptyFilter
      ⟨none, none, none, none⟩ emptyFilter).1 rfl,
   (c4_filter_param .Customer ⟨none, none⟩ emptyFilter
      ⟨none, none, none, none⟩ emptyFilter).2.1 rfl⟩

/-- C9 counterexample: the caller's argument object IS mutated.
`getAssets` aliases the options object (`let params: any = option`) and,
because an (even empty) `Filter` object is truthy, overwrites its
`filter` property with the serialized JSON string before the request is
sent — so after a failing send the options object no longer holds the
caller's `Filter`. -/
theorem c9_no_mutation_counterexample :
    getAssetsParams (some ⟨none, none, some (.obj emptyFilter), none⟩) ≠
      some ⟨none, none, some (.obj emptyFilter), none⟩ := by
  intro h
  simp [getAssetsParams, FilterSlot.truthy, FilterSlot.toJson] at h

/-- C9 (amended): a failing send mutates no passed-in `Field` array or
`Filter` value — the serialized output is built from the unchanged filter
— but `getAssets` and `getProducts` do overwrite the `filter` property of
the caller's options object with its JSON string whenever a filter is
supplied, leaving every other property unchanged; with no filter supplied
the options object is untouched. -/
theorem c9_mutation_extent (o : AssetFilterOptions) (fl : Filter)
    (po : ProductFilterOptions) (pf : ProductFilter) :
    (o.filter = none → getAssetsParams (some o) = some o) ∧
    (o.filter = some (.obj fl) →
      ∃ r, getAssetsParams (some o) = some r ∧
        r.type = o.type ∧ r.ref_id = o.ref_id ∧ r.page = o.page ∧
        r.filter = some (.str (stringify (filterToJson fl)))) ∧
    (po.filter = none → getProductsParams (some po) = some po) ∧
    (po.filter = some (.obj pf) →
      ∃ r, getProductsParams (some po) = some r ∧
        r.page = po.page ∧
        r.filter =
          some (.str (stringify (.obj (productFilterEntries pf))))) := by
  refine ⟨?_, ?_, ?_, ?_⟩
  · intro h
    simp [getAssetsParams, h]
  · intro h
    have hr : getAssetsParams (some o) =
        some { o with filter := some (.str (stringify (filterToJson fl))) } := by
      simp [getAssetsParams, h, FilterSlot.truthy, FilterSlot.toJson]
    exact ⟨_, hr, rfl, rfl, rfl, rfl⟩
  · intro h
    simp [getProductsParams, h]
  · intro h
    have hr : getProductsParams (some po) =
        some { po with filter := some (.str (stringify (.obj (productFilterEntries pf)))) } := by
      simp [getProductsParams, h, ProductFilterSlot.truthy,
        ProductFilterSlot.toJson]
    exact ⟨_, hr, rfl, rfl⟩

/-- C9 (amended) witness: the exact mutation at a concrete options
object holding the empty filter. -/
theorem c9_mutation_extent_witness :
    ∃ r, getAssetsParams
        (some ⟨some .Asset, some "r7", some (.obj emptyFilter), some 2⟩) =
          some r ∧
      r.type = some .Asset ∧ r.ref_id = some "r7" ∧ r.page = some 2 ∧
      r.filter = some (.str (stringify (filterToJson emptyFilter))) := by
  have h := (c9_mutation_extent
    ⟨some .Asset, some "r7", some (.obj emptyFilter), some 2⟩ emptyFilter
    ⟨none, none⟩ ⟨none⟩).2.1 rfl
  exact h

/-- UTC offset in minutes of the single zone the SDK names.  Modelled
from the spec: the moment-timezone collaborator's IANA data, of which the
code uses only `Asia/Kuala_Lumpur` (UTC+8). -/
def tzOffsetMinutes (zone : String) : Int :=
  if zone = "Asia/Kuala_Lumpur" then 480 else 0

/-- A moment instant: epoch seconds plus the display offset of the zone
it is bound to. -/
structure Moment where
  epoch : Int
  offsetMin : Int
deriving Repr, DecidableEq

/-- `moment.tz(zone)` evaluated when the current instant is `nowEpoch`. -/
def momentTz (nowEpoch : Int) (zone : String) : Moment :=
  ⟨nowEpoch, tzOffsetMinutes zone⟩

/-- Gregorian date from days since the epoch (civil-from-days). -/
def civilFromDays (z0 : Int) : Int × Int × Int :=
  let z := z0 + 719468
  let era := Int.fdiv z 146097
  let doe := z - era * 146097
  let yoe := (doe - doe / 1460 + doe / 36524 - doe / 146096) / 365
  let y := yoe + era * 400
  let doy := doe - (365 * yoe + yoe / 4 - yoe / 100)
  let mp := (5 * doy + 2) / 153
  let d := doy - (153 * mp + 2) / 5 + 1
  let m := mp + (if mp < 10 then 3 else -9)
  (y + (if m ≤ 2 then 1 else 0), m, d)

/-- Zero-padded two-digit rendering. -/
def pad2 (n : Int) : String :=
  if n < 10 then "0" ++ toString n else toString n

/-- Zero-padded four-digit rendering. -/
def pad4 (n : Int) : String :=
  if n < 10 then "000" ++ toString n
  else if n < 100 then "00" ++ toString n
  else if n < 1000 then "0" ++ toString n
  else toString n

/-- The `YYYY-MM-DD HH:mm:ss` rendering of a zone-shifted instant, the
format string `updateStatus` passes to `format`. -/
def ymdhms (t : Int) : String :=
  let days := Int.fdiv t 86400
  let secs := Int.fmod t 86400
  let c := civilFromDays days
  pad4 c.1 ++ "-" ++ pad2 c.2.1 ++ "-" ++ pad2 c.2.2 ++ " " ++
    pad2 (secs / 3600) ++ ":" ++ pad2 (secs / 60 % 60) ++ ":" ++
    pad2 (secs % 60)

/-- `moment.format('YYYY-MM-DD HH:mm:ss')`: render the instant shifted
into the moment's zone. -/
def Moment.format (m : Moment) : String :=
  ymdhms (m.epoch + m.offsetMin * 60)

/-- The request of `SDK.updateStatus`: query params `{type, ref_id,
update_date}` and body `{status}`. -/
structure UpdateStatusParams where
  type : TemplateType
  ref_id : String
  update_date : String

/-- `SDK.updateStatus` request construction:
`update_date = update_date ?? moment.tz('Asia/Kuala_Lumpur')`, formatted
as `YYYY-MM-DD HH:mm:ss`. -/
def updateStatusRequest (nowEpoch : Int) (ttype : TemplateType)
    (ref_id : String) (status : String) (update_date : Option Moment) :
    UpdateStatusParams × String :=
  let ud := update_date.getD (momentTz nowEpoch "Asia/Kuala_Lumpur")
  (⟨ttype, ref_id, ud.format⟩, status)

/-- C6: with no explicit instant, `updateStatus` formats the current
instant in the fixed `Asia/Kuala_Lumpur` zone (UTC+8) — independent of
any caller-local zone, as the concrete epoch-0 value `08:00:00` (≠ the
zero-offset rendering) shows; with an explicit instant, that instant is
formatted instead. -/
theorem c6_updateStatus_timezone (now : Int) (t : TemplateType)
    (r s : String) (m : Moment) :
    (updateStatusRequest now t r s none).1.update_date =
      Moment.format ⟨now, 480⟩ ∧
    tzOffsetMinutes "Asia/Kuala_Lumpur" = 480 ∧
    (updateStatusRequest now t r s (some m)).1.update_date = m.format ∧
    (updateStatusRequest 0 t r s none).1.update_date =
      "1970-01-01 08:00:00" ∧
    (updateStatusRequest 0 t r s none).1.update_date ≠ ymdhms 0 := by
  refine ⟨?_, rfl, rfl, ?_, ?_⟩
  · simp [updateStatusRequest, momentTz, tzOffsetMinutes]
  · show ymdhms (0 + 480 * 60) = "1970-01-01 08:00:00"
    decide
  · show ymdhms (0 + 480 * 60) ≠ ymdhms 0
    decide

/-- C7 witness: a concrete missed lookup returns `none`. -/
theorem c7_fieldHelper_total_witness :
    getValue [⟨"a", "A", "text", .str "x"⟩] "zz" = none :=
  ((c7_fieldHelper_total [⟨"a", "A", "text", .str "x"⟩] "zz"
    (.str "v")).1).mpr (by decide)

/-- C8 witness: a caller-supplied `key` header overrides the default. -/
theorem c8_headers_merge_witness :
    lookupHeader (buildHeaders "K" "S" [("key", "C")]) "key" = some "C" := by
  have h := (c8_headers_merge "K" "S" [("key", "C")]).1
  simpa using h

/-- C10 witness: an unrecognized key maps to the `false` result. -/
theorem c10_toTemplateType_total_witness :
    toTemplateType "nope" = none :=
  (c10_toTemplateType_total.2.2.2.2.2.2.2.2.2.2.2.2.2.1 "nope").mpr
    (by decide)

/-- C6 witness: the default-timestamp clause applied at epoch 0. -/
theorem c6_updateStatus_timezone_witness :
    (updateStatusRequest 0 .Job "r" "s" none).1.update_date =
      Moment.format ⟨0, 480⟩ :=
  (c6_updateStatus_timezone 0 .Job "r" "s" ⟨0, 0⟩).1

end SC
